import Mathlib

/-!
# Verification of the gunma-political-funds-ocr pipeline

A shallow embedding of the core logic of the repository:

* `src/payee_enrichment.py` — `PayeeEnrichmentService.enrich_payee_info` with its
  in-memory cache (`self.cache`, `self.cache_expiry`);
* `src/receipt_analyzer.py` — `ReceiptAnalyzer.analyze_receipt_image`;
* `src/ocr_processor.py` — `OCRProcessor._parse_coordinates` and
  `OCRProcessor.process_folder`.

External collaborators (the OpenAI client, the Azure recognition client, the
filesystem, PIL) are modelled as explicit oracle parameters returning
`Except`/`Option` values; `datetime.now()` is modelled as a `Nat` timestamp in
seconds threaded through each call.
-/

namespace GunmaOCR

/-! ## Payee enrichment (`src/payee_enrichment.py`) -/

/-- The formatted enrichment record built by `enrich_payee_info`
(payee_enrichment.py lines 87-96 on success, lines 107-116 on failure).
The Python code stores `enrichment_date` as a formatted string of the current
time; it is modelled here as the raw timestamp. -/
structure EnrichedInfo where
  business_type : String
  business_description : String
  establishment_year : String
  capital : String
  employees : String
  website : String
  notes : String
  enrichment_date : Nat
deriving Repr, DecidableEq

/-- The JSON object returned by the external model, as read by
`result.get(key, default)`: `none` models an absent key. -/
structure RawBusinessJson where
  business_type : Option String
  business_description : Option String
  establishment_year : Option String
  capital : Option String
  employees : Option String
  website : Option String
  notes : Option String
deriving Repr, DecidableEq

/-- The mutable state of `PayeeEnrichmentService`: the dictionaries
`self.cache` and `self.cache_expiry` (payee_enrichment.py lines 23-24). -/
structure CacheState where
  cache : String → Option EnrichedInfo
  cache_expiry : String → Option Nat

/-- A fresh service: both dictionaries empty. -/
def emptyCache : CacheState := ⟨fun _ => none, fun _ => none⟩

/-- `cache_key = f"{payee_name}_{payee_address}"` (payee_enrichment.py line 40). -/
def cacheKey (payee_name payee_address : String) : String :=
  payee_name ++ "_" ++ payee_address

/-- `timedelta(hours=24)` in seconds. -/
def hours24 : Nat := 24 * 3600

/-- Lines 87-96: format the model JSON, defaulting `business_type` to
"不明" and every other missing field to the empty string. -/
def formatEnriched (raw : RawBusinessJson) (now : Nat) : EnrichedInfo :=
  ⟨raw.business_type.getD "不明", raw.business_description.getD "",
   raw.establishment_year.getD "", raw.capital.getD "", raw.employees.getD "",
   raw.website.getD "", raw.notes.getD "", now⟩

/-- Lines 107-116: the record returned when the external call raises. -/
def errorEnriched (msg : String) (now : Nat) : EnrichedInfo :=
  ⟨"エラー", "情報取得エラー", "", "", "", "", msg, now⟩

/-- Result of one `enrich_payee_info` call: the returned record, the service
state afterwards, and how many external model requests were issued (0 or 1). -/
structure EnrichOutcome where
  record : EnrichedInfo
  state : CacheState
  externalRequests : Nat

/-- The cache state after storing `info` under `key` with expiry
`now + 24h` (payee_enrichment.py lines 98-100). -/
def storeEntry (st : CacheState) (key : String) (info : EnrichedInfo)
    (now : Nat) : CacheState :=
  ⟨fun k => if k = key then some info else st.cache k,
   fun k => if k = key then some (now + hours24) else st.cache_expiry k⟩

/-- The `try` block of `enrich_payee_info` (lines 46-116): issue one external
request; on success store the formatted record in both cache dictionaries with
a 24-hour expiry (lines 98-100) and return it; on any exception return the
error record and leave the cache untouched. -/
def enrichFetch (fetch : String → String → Except String RawBusinessJson)
    (now : Nat) (st : CacheState) (payee_name payee_address : String) :
    EnrichOutcome :=
  match fetch payee_name payee_address with
  | Except.ok raw =>
      let info := formatEnriched raw now
      ⟨info, storeEntry st (cacheKey payee_name payee_address) info now, 1⟩
  | Except.error e => ⟨errorEnriched e now, st, 1⟩

/-- `enrich_payee_info` (payee_enrichment.py lines 26-116).  Lines 39-44: when
`use_cache` is set and the key is present, return the cached record if
`now < cache_expiry.get(key, datetime.min)` (the `datetime.min` default is
modelled by `getD 0`); otherwise fall through to the external fetch. -/
def enrich_payee_info (fetch : String → String → Except String RawBusinessJson)
    (now : Nat) (st : CacheState) (payee_name : String) (payee_address : String)
    (use_cache : Bool) : EnrichOutcome :=
  if use_cache then
    match st.cache (cacheKey payee_name payee_address) with
    | some cached =>
        if now < (st.cache_expiry (cacheKey payee_name payee_address)).getD 0 then
          ⟨cached, st, 0⟩
        else enrichFetch fetch now st payee_name payee_address
    | none => enrichFetch fetch now st payee_name payee_address
  else enrichFetch fetch now st payee_name payee_address

/-- Concrete JSON object used by several witnesses. -/
def sampleRaw : RawBusinessJson :=
  ⟨some "飲食業", some "ラーメン店", none, none, none, none, none⟩

/-- An oracle that always succeeds with `sampleRaw`. -/
def okFetch : String → String → Except String RawBusinessJson :=
  fun _ _ => Except.ok sampleRaw

/-- An oracle that always fails. -/
def errFetch : String → String → Except String RawBusinessJson :=
  fun _ _ => Except.error "network error"

/-! ## Receipt vision analysis (`src/receipt_analyzer.py`) -/

/-- The JSON object parsed from the vision model response in
`analyze_receipt_image`, as read by `result.get(key, default)`:
`none` models an absent key.  Score fields are kept as opaque strings. -/
structure ReceiptAnalysis where
  payee_name : Option String
  payee_address : Option String
  payment_date : Option String
  payment_purpose : Option String
  validity_score : Option String
  validity_reason : Option String
  payee_detail : Option String
  transparency_score : Option String
  alternative_suggestion : Option String
  news_value_potential_score : Option String
  news_value_potential_reason : Option String
deriving Repr, DecidableEq

/-- The dictionary returned by the `except` branch of `analyze_receipt_image`
(receipt_analyzer.py lines 212-224): all 11 fields hold "エラー". -/
def errorAnalysis : ReceiptAnalysis :=
  ⟨some "エラー", some "エラー", some "エラー", some "エラー", some "エラー",
   some "エラー", some "エラー", some "エラー", some "エラー", some "エラー",
   some "エラー"⟩

/-- The fallible front part of `analyze_receipt_image` (receipt_analyzer.py
lines 72-183): base64-encode the image, issue the vision model request with
the encoded image, parse the response content as JSON.  An exception at any of
the three stages is an `Except.error`. -/
def visionPipeline (encodeImage : Except String String)
    (visionCall : String → Except String String)
    (parseJson : String → Except String ReceiptAnalysis) :
    Except String ReceiptAnalysis := do
  let base64_image ← encodeImage
  let content ← visionCall base64_image
  parseJson content

/-- Lines 195-203: the list of non-empty enrichment summary parts, in order
business type, description, establishment year, website. -/
def payeeDetailParts (info : EnrichedInfo) : List String :=
  (if info.business_type ≠ "" then ["業種: " ++ info.business_type] else [])
  ++ (if info.business_description ≠ ""
      then ["事業内容: " ++ info.business_description] else [])
  ++ (if info.establishment_year ≠ ""
      then ["設立: " ++ info.establishment_year] else [])
  ++ (if info.website ≠ "" then ["Web: " ++ info.website] else [])

/-- `analyze_receipt_image` (receipt_analyzer.py lines 47-224).  On success of
the vision pipeline, when `payee_name` is truthy and not a sentinel, call
`enrich_payee_info` (with the default `use_cache = true`) and overwrite
`payee_detail` with the slash-joined summary, falling back to the model value
when all four parts are empty (line 205); the whole body is a `try` whose
`except` returns `errorAnalysis`. -/
def analyze_receipt_image (encodeImage : Except String String)
    (visionCall : String → Except String String)
    (parseJson : String → Except String ReceiptAnalysis)
    (fetch : String → String → Except String RawBusinessJson)
    (now : Nat) (st : CacheState) : ReceiptAnalysis × CacheState :=
  match visionPipeline encodeImage visionCall parseJson with
  | Except.error _ => (errorAnalysis, st)
  | Except.ok result =>
      let payee_name := result.payee_name.getD ""
      let payee_address := result.payee_address.getD ""
      if payee_name ≠ "" ∧ payee_name ≠ "不明" ∧ payee_name ≠ "エラー" then
        let o := enrich_payee_info fetch now st payee_name payee_address true
        let parts := payeeDetailParts o.record
        let detail := if parts ≠ [] then String.intercalate " / " parts
                      else result.payee_detail.getD ""
        ({ result with payee_detail := some detail }, o.state)
      else (result, st)

/-! ## Coordinate parsing (`src/ocr_processor.py`, `_parse_coordinates`) -/

/-- The longest run of decimal digits at the head of the list, paired with the
remaining characters (models a greedy regex `\d+` step). -/
def takeDigits : List Char → List Char × List Char
  | [] => ([], [])
  | c :: cs =>
      if c.isDigit then
        let p := takeDigits cs
        (c :: p.1, p.2)
      else ([], c :: cs)

/-- Numeric value of a digit character. -/
def digitVal (c : Char) : Nat := c.toNat - '0'.toNat

/-- Value of a decimal digit string. -/
def digitsVal (l : List Char) : Nat :=
  l.foldl (fun a c => a * 10 + digitVal c) 0

/-- One match of the group of `[xy]=(\d+(?:\.\d+)?)`: integer digits plus the
optional fraction digits. -/
structure XYMatch where
  intPart : List Char
  fracPart : Option (List Char)
deriving Repr, DecidableEq

/-- Attempt of the numeric part `\d+(?:\.\d+)?` of the pattern at the head of
the list: greedy digits, then a greedy optional fraction requiring at least
one digit after the dot. -/
def matchNum (l : List Char) : Option XYMatch :=
  let d := takeDigits l
  if d.1 = [] then none
  else
    match d.2 with
    | dot :: r2 =>
        if dot = '.' then
          let f := takeDigits r2
          if f.1 = [] then some ⟨d.1, none⟩ else some ⟨d.1, some f.1⟩
        else some ⟨d.1, none⟩
    | [] => some ⟨d.1, none⟩

/-- The attempt of the pattern `[xy]=(\d+(?:\.\d+)?)` at one scan position:
the head character `c` must be `x` or `y`, the next character `=`, and a
numeric token must follow; `recur` is the scan of the rest of the string. -/
def findXYStep (c : Char) (rest : List Char) (recur : List XYMatch) :
    List XYMatch :=
  if c = 'x' ∨ c = 'y' then
    match rest with
    | e :: rest2 =>
        if e = '=' then
          match matchNum rest2 with
          | some m => m :: recur
          | none => recur
        else recur
    | [] => recur
  else recur

/-- `re.findall(r'[xy]=(\d+(?:\.\d+)?)', s)` (ocr_processor.py lines 349-350).
The scanner below tries a full match at every position instead of skipping
over the span of a found match; for this particular pattern the two scans
return the same match list, because a match can only start at an `x` or `y`
character and the span of a match (`=`, digits, an optional dot and digits)
contains neither. -/
def findXY : List Char → List XYMatch
  | [] => []
  | c :: rest => findXYStep c rest (findXY rest)

/-- Base-2 logarithm with explicit fuel: `log2Fuel fuel n = ⌊log2 n⌋` for
`1 ≤ n ≤ fuel` (structural recursion keeps it kernel-computable). -/
def log2Fuel : Nat → Nat → Nat
  | 0, _ => 0
  | fuel + 1, n => if n ≤ 1 then 0 else log2Fuel fuel (n / 2) + 1

/-- `⌊log2 n⌋` for `n ≥ 1`. -/
def natLog2 (n : Nat) : Nat := log2Fuel n n

/-- Does `2 ^ e ≤ num / den` hold (`num`, `den` positive, `e` an integer)? -/
def pow2LE (e : Int) (num den : Nat) : Bool :=
  if 0 ≤ e then den * 2 ^ e.toNat ≤ num else den ≤ num * 2 ^ (-e).toNat

/-- `⌊log2 (num / den)⌋` for positive `num`, `den`: the floor is one of the
two candidates bracketed by the factor logarithms. -/
def floorLog2 (num den : Nat) : Int :=
  if pow2LE ((natLog2 num : Int) - (natLog2 den : Int)) num den then
    (natLog2 num : Int) - (natLog2 den : Int)
  else (natLog2 num : Int) - (natLog2 den : Int) - 1

/-- `int(float(num / den))` for a nonnegative decimal value under CPython
semantics: `float` of a decimal string is the correctly rounded (nearest,
ties to even) IEEE binary64 value, `int` truncates toward zero, and an
infinite float makes `int` raise `OverflowError` — `none` here; the enclosing
`try` of `_parse_coordinates` turns that into the no-box result.  The
computation is exact integer arithmetic: the value is normalized to a 53-bit
significand `m` at binary exponent `E`, rounded by remainder comparison, and
scaled back.  Subnormal doubles are modelled with full 53-bit precision; that
deviation never changes the truncated integer, because every value below the
normal range truncates to 0 either way. -/
def roundTruncDouble (num den : Nat) : Option Int :=
  if num = 0 then some 0
  else
    let E : Int := floorLog2 num den - 52
    let A := if 0 < E then num else num * 2 ^ (-E).toNat
    let B := if 0 < E then den * 2 ^ E.toNat else den
    let m := A / B
    let m2 := if B < 2 * (A % B) ∨ (2 * (A % B) = B ∧ m % 2 = 1) then m + 1
              else m
    if 0 < E then
      if 2 ^ 1024 ≤ m2 * 2 ^ E.toNat then none
      else some (Int.ofNat (m2 * 2 ^ E.toNat))
    else some (Int.ofNat (m2 / 2 ^ (-E).toNat))

/-- Strip trailing zero digits of a fraction part; the rational value of the
token is unchanged. -/
def stripZeros (l : List Char) : List Char :=
  (l.reverse.dropWhile (fun c => c = '0')).reverse

/-- `int(float(tok))` for a matched numeric token `intPart[.fracPart]`: the
decimal value is `digits(intPart ++ fracPart) / 10 ^ |fracPart|`; trailing
zero fraction digits are stripped first (value-preserving), so a ".0" suffix
leaves a plain integer.  `none` models the `OverflowError` of `int` on an
infinite float. -/
def matchIntVal? (m : XYMatch) : Option Int :=
  roundTruncDouble
    (digitsVal (m.intPart ++ stripZeros (m.fracPart.getD [])))
    (10 ^ (stripZeros (m.fracPart.getD [])).length)

/-- Python `str.split(",")`. -/
def splitComma : List Char → List (List Char)
  | [] => [[]]
  | c :: r =>
      if c = ',' then [] :: splitComma r
      else
        match splitComma r with
        | [] => [[c]]
        | t :: ts => (c :: t) :: ts

/-- Decimal digit string to a number; `none` when empty or containing a
non-digit. -/
def digitsToNat? (l : List Char) : Option Nat :=
  if l ≠ [] ∧ l.all Char.isDigit then some (digitsVal l) else none

/-- Python `int(token)`: optional surrounding whitespace, an optional single
sign, then at least one decimal digit.  (Underscore digit grouping, accepted
by Python 3, is not modelled; no claim depends on it.) -/
def pyInt (l : List Char) : Option Int :=
  let t := ((l.dropWhile Char.isWhitespace).reverse.dropWhile
      Char.isWhitespace).reverse
  match t with
  | [] => none
  | c :: ds =>
      if c = '+' then (digitsToNat? ds).map Int.ofNat
      else if c = '-' then (digitsToNat? ds).map (fun n => -(n : Int))
      else (digitsToNat? (c :: ds)).map Int.ofNat

/-- Sequence a list of optional values; `none` as soon as one entry is `none`
(models the first `int(...)` call raising inside the comprehension). -/
def allSome {α : Type} : List (Option α) → Option (List α)
  | [] => some []
  | o :: os =>
      match o, allSome os with
      | some a, some l => some (a :: l)
      | _, _ => none

/-- Python substring containment `needle in hay`. -/
def containsSub (needle : List Char) : List Char → Bool
  | [] => needle.isEmpty
  | c :: r => needle.isPrefixOf (c :: r) || containsSub needle r

/-- The characters of the "Point(" marker tested by line 348. -/
def pointMarker : List Char := ['P', 'o', 'i', 'n', 't', '(']

/-- `_parse_coordinates` (ocr_processor.py lines 336-365) over the character
list.  When the string contains "Point(", collect the regex matches, coerce
each with `int(float(tok))` (an `OverflowError` inside the comprehension is
caught by the enclosing `try`, yielding `none`) and require exactly 8 of
them; otherwise split on commas, convert each token with `int` (an exception
again yields `none`) and require exactly 8 tokens.  Every other outcome is
`none`. -/
def parseCoordinatesCore (coord_string : List Char) : Option (List Int) :=
  if containsSub pointMarker coord_string then
    let ms := findXY coord_string
    if ms ≠ [] then
      match allSome (ms.map matchIntVal?) with
      | some coords => if coords.length = 8 then some coords else none
      | none => none
    else none
  else
    match allSome ((splitComma coord_string).map pyInt) with
    | some coords => if coords.length = 8 then some coords else none
    | none => none

/-- `_parse_coordinates` on a string. -/
def _parse_coordinates (coord_string : String) : Option (List Int) :=
  parseCoordinatesCore coord_string.toList

/-! ### The two textual encodings of a quadrilateral (for claim C4) -/

/-- A numeric token `digits` optionally followed by ".0" (the Azure SDK
stringifies point coordinates as floats such as "1359.0"). -/
def numTok (d : List Char) (withFrac : Bool) : List Char :=
  d ++ (if withFrac then ['.', '0'] else [])

/-- One point of the point-descriptor encoding: the x and y digit strings and
whether each carries a ".0" fraction. -/
structure PointTok where
  xDigits : List Char
  xFrac : Bool
  yDigits : List Char
  yFrac : Bool
deriving Repr, DecidableEq

/-- `str(Point(x=..., y=...))` as produced by the recognition SDK. -/
def pointEncodingOne (p : PointTok) : List Char :=
  ['P', 'o', 'i', 'n', 't', '(', 'x', '='] ++ numTok p.xDigits p.xFrac
    ++ [',', ' ', 'y', '='] ++ numTok p.yDigits p.yFrac ++ [')']

/-- The captured fraction of a token: `["0"]` when the ".0" suffix is present. -/
def fracOf (b : Bool) : Option (List Char) := if b then some ['0'] else none

/-- The list does not continue with a digit (a boundary for a greedy `\d+`). -/
def headNotDigit : List Char → Bool
  | [] => true
  | c :: _ => !c.isDigit

/-- The list continues with neither a digit nor a dot (a boundary for the
whole numeric token). -/
def stopChar : List Char → Bool
  | [] => true
  | c :: _ => !(c.isDigit || c = '.')

/-- Comma-join of character-list tokens (`",".join(...)`). -/
def joinComma : List (List Char) → List Char
  | [] => []
  | [t] => t
  | t :: ts => t ++ ',' :: joinComma ts

/-- The point-descriptor encoding: comma-joined stringified points, exactly as
built by `_call_azure_api` line 138. -/
def pointEncoding (ps : List PointTok) : List Char :=
  joinComma (ps.map pointEncodingOne)

/-- The flat token list of a point list: x and y digit strings in order. -/
def flatTokens (ps : List PointTok) : List (List Char) :=
  ps.flatMap (fun p => [p.xDigits, p.yDigits])

/-- The flat comma-separated encoding of the same numeric values. -/
def flatEncoding (ps : List PointTok) : List Char :=
  joinComma (flatTokens ps)

/-- The integer coordinate values a point list encodes. -/
def coordValues (ps : List PointTok) : List Int :=
  ps.flatMap (fun p => [Int.ofNat (digitsVal p.xDigits),
                     Int.ofNat (digitsVal p.yDigits)])

/-- A well-formed digit token: non-empty and all decimal digits. -/
def goodDigits (d : List Char) : Bool := !d.isEmpty && d.all Char.isDigit

/-- A well-formed point token. -/
def goodPoint (p : PointTok) : Bool :=
  goodDigits p.xDigits && goodDigits p.yDigits

/-! ## Batch orchestration (`src/ocr_processor.py`, `process_folder`) -/

/-- A cell of an output row: Python `None`, a string, or a number. -/
inductive Cell
  | null
  | str (s : String)
  | num (n : Nat)
deriving Repr, DecidableEq

/-- An output row: a Python dict in insertion order. -/
abbrev Row := List (String × Cell)

/-- Cell of an optional string field value. -/
def cellOfOpt : Option String → Cell
  | some s => Cell.str s
  | none => Cell.null

/-- Cell of an optional number (the `page_number_on_pdf` value). -/
def cellOfOptNat : Option Nat → Cell
  | some n => Cell.num n
  | none => Cell.null

/-- Python truthiness of a cell value. -/
def cellTruthy : Cell → Bool
  | Cell.null => false
  | Cell.str s => s ≠ ""
  | Cell.num n => n ≠ 0

/-- Python dict assignment `row[k] = v`: overwrite in place when the key
exists, append otherwise. -/
def dictInsert : Row → String → Cell → Row
  | [], k, v => [(k, v)]
  | kv :: r, k, v =>
      if kv.1 = k then (k, v) :: r else kv :: dictInsert r k v

/-- Python dict read `row[k]` / membership `k in row`. -/
def rowGet : Row → String → Option Cell
  | [], _ => none
  | kv :: r, k => if kv.1 = k then some kv.2 else rowGet r k

/-- One structured document of a recognition result: its declared type and
its field dict in insertion order (`none` models a field whose value is
Python `None`).  The reserved "receipt_image_area" pseudo-field, when the
recognizer located a receipt region, sits in this dict as well. -/
structure DocRecord where
  doc_type : Option String
  fields : List (String × Option String)
deriving Repr, DecidableEq

/-- One page of the fallback text result. -/
structure PageRec where
  page_number : Nat
  text : String
deriving Repr, DecidableEq

/-- The shape of the dictionary returned by `_call_azure_api`
(ocr_processor.py lines 112-165): either `{"documents": ...}` or the
text/pages fallback. -/
inductive RecogResult
  | documents (docs : List DocRecord)
  | pages (ps : List PageRec)
deriving Repr, DecidableEq

/-- One folder entry together with the outcome of `process_single_image` on
it: `none` models a recognition failure (the per-file `try` in
`process_single_image`, lines 52-64, catches the exception, logs an error and
returns `None`). -/
structure FileEntry where
  filename : String
  recog : Option RecogResult
deriving Repr, DecidableEq

/-- `filename.lower().endswith(('.png', '.jpg', '.jpeg', '.pdf'))`
(ocr_processor.py lines 183 and 192). -/
def isSupportedFile (filename : String) : Bool :=
  let l := filename.toList.map Char.toLower
  (".png".toList).isSuffixOf l || (".jpg".toList).isSuffixOf l
    || (".jpeg".toList).isSuffixOf l || (".pdf".toList).isSuffixOf l

/-- Match a literal character prefix, returning the remainder. -/
def stripLit : List Char → List Char → Option (List Char)
  | [], l => some l
  | _ :: _, [] => none
  | p :: ps, c :: cs => if p = c then stripLit ps cs else none

/-- `re.search(r'page_(\d+)', filename)` (ocr_processor.py line 214): the
leftmost position where the literal "page_" is followed by at least one
digit; the captured value is the maximal digit run there. -/
def findPageNum : List Char → Option Nat
  | [] => none
  | c :: rest =>
      match stripLit ("page_".toList) (c :: rest) with
      | some r =>
          let d := takeDigits r
          if d.1 = [] then findPageNum rest else some (digitsVal d.1)
      | none => findPageNum rest

/-- Drop through the first '.' of a list; `none` when there is no dot. -/
def dropExtRev : List Char → Option (List Char)
  | [] => none
  | c :: r => if c = '.' then some r else dropExtRev r

/-- `os.path.splitext(name)[0]`: strip from the last dot on, where the leading
dots of the name do not count as extension separators. -/
def splitextBase (s : List Char) : List Char :=
  let lead := s.takeWhile (fun c => c = '.')
  let rest := s.drop lead.length
  match dropExtRev rest.reverse with
  | some base => lead ++ base.reverse
  | none => lead ++ rest

/-- Output of processing one structured document inside `process_folder`
(lines 200-262): the assembled row, the receipt crops attempted (the
`_crop_and_save_image` call, which itself never raises), and the messages of
`logger.error` calls in the per-document analysis `except` (line 256). -/
structure DocOutput where
  row : Row
  crops : List String
  analysisErrors : List String
deriving Repr, DecidableEq

/-- Row assembly for one document (ocr_processor.py lines 202-223): seed with
folder name, filename, model name, form type; copy the receipt area field
when present; derive the pdf page number from the filename; then copy all
remaining fields in dict order, skipping the already-placed area field. -/
def buildDocRow (model_mapping : String → Option String)
    (folder_name filename form_type : String) (doc : DocRecord) : Row :=
  let row0 : Row := [("folder_name", Cell.str folder_name),
                     ("filename", Cell.str filename),
                     ("model_name", cellOfOpt (model_mapping form_type)),
                     ("type", Cell.str form_type)]
  let row1 := match doc.fields.lookup "receipt_image_area" with
    | some v => dictInsert row0 "receipt_image_area" (cellOfOpt v)
    | none => row0
  let row2 := dictInsert row1 "page_number_on_pdf"
      (cellOfOptNat (findPageNum filename.toList))
  doc.fields.foldl
    (fun r kv => if kv.1 = "receipt_image_area" then r
                 else dictInsert r kv.1 (cellOfOpt kv.2)) row2

/-- The per-document body of `process_folder` (ocr_processor.py lines
200-262).  When `extract_receipts` is set and the row holds a truthy receipt
area string that parses to a box, the crop is attempted and, when
`analyze_receipts` and an analyzer are configured, the analysis result (or
empty strings on an analysis exception) is merged into the row.  A receipt
area cell that is not a string cannot reach the crop step here, since only
string fields and the comma-joined polygon are stored under that key. -/
def docProcess (model_mapping : String → Option String)
    (analyzer : Option (String → Except String ReceiptAnalysis))
    (folder_name filename form_type : String)
    (extract_receipts analyze_receipts : Bool)
    (doc_idx : Nat) (doc : DocRecord) : DocOutput :=
  let row3 := buildDocRow model_mapping folder_name filename form_type doc
  if extract_receipts then
    match rowGet row3 "receipt_image_area" with
    | some (Cell.str s) =>
        if s ≠ "" then
          match parseCoordinatesCore s.toList with
          | some _ =>
              let receipt_filename :=
                String.mk (splitextBase filename.toList)
                  ++ "_receipt_" ++ toString doc_idx ++ ".jpg"
              if analyze_receipts then
                match analyzer with
                | some analyze =>
                    match analyze receipt_filename with
                    | Except.ok info =>
                        ⟨dictInsert (dictInsert (dictInsert (dictInsert row3
                            "payee_name" (Cell.str (info.payee_name.getD "")))
                            "payee_address" (Cell.str (info.payee_address.getD "")))
                            "payment_date_extracted" (Cell.str (info.payment_date.getD "")))
                            "payment_purpose" (Cell.str (info.payment_purpose.getD "")),
                         [receipt_filename], []⟩
                    | Except.error e =>
                        ⟨dictInsert (dictInsert (dictInsert (dictInsert row3
                            "payee_name" (Cell.str ""))
                            "payee_address" (Cell.str ""))
                            "payment_date_extracted" (Cell.str ""))
                            "payment_purpose" (Cell.str ""),
                         [receipt_filename],
                         ["Error analyzing receipt: " ++ e]⟩
                | none => ⟨row3, [receipt_filename], []⟩
              else ⟨row3, [receipt_filename], []⟩
          | none => ⟨row3, [], []⟩
        else ⟨row3, [], []⟩
    | _ => ⟨row3, [], []⟩
  else ⟨row3, [], []⟩

/-- Output of processing one folder entry: its rows, attempted crops,
per-file error log messages (from `process_single_image`), and per-document
analysis error messages. -/
structure FileOutput where
  rows : List Row
  crops : List String
  errors : List String
  analysisErrors : List String
deriving Repr, DecidableEq

/-- The per-file body of the `process_folder` loop (ocr_processor.py lines
191-274): skip unsupported extensions; a failed recognition contributes no
rows and one logged error; a structured result contributes one row per
document; a pages fallback contributes one `filename`/`page`/`ocr_result` row
per page. -/
def processFile (model_mapping : String → Option String)
    (analyzer : Option (String → Except String ReceiptAnalysis))
    (folder_name form_type : String) (extract_receipts analyze_receipts : Bool)
    (entry : FileEntry) : FileOutput :=
  if isSupportedFile entry.filename then
    match entry.recog with
    | none => ⟨[], [], ["Error processing " ++ entry.filename], []⟩
    | some (RecogResult.documents docs) =>
        let outs := docs.enum.map (fun p =>
          docProcess model_mapping analyzer folder_name entry.filename
            form_type extract_receipts analyze_receipts p.1 p.2)
        ⟨outs.map DocOutput.row, (outs.map DocOutput.crops).flatten, [],
         (outs.map DocOutput.analysisErrors).flatten⟩
    | some (RecogResult.pages ps) =>
        ⟨ps.map (fun p => [("filename", Cell.str entry.filename),
                           ("page", Cell.num p.page_number),
                           ("ocr_result", Cell.str p.text)]), [], [], []⟩
  else ⟨[], [], [], []⟩

/-- The final table: ordered column names and the collected rows. -/
structure PTable where
  cols : List String
  rows : List Row
deriving Repr, DecidableEq

/-- The fixed priority column order (ocr_processor.py lines 280-281). -/
def priority_cols : List String :=
  ["folder_name", "filename", "model_name", "type", "receipt_image_area",
   "page_number_on_pdf", "page_number", "payee_name", "payee_address",
   "payment_date_extracted", "payment_purpose"]

/-- Add the keys of one row to an accumulated first-seen column list. -/
def addRowCols (acc : List String) (row : Row) : List String :=
  row.foldl (fun a kv => if kv.1 ∈ a then a else a ++ [kv.1]) acc

/-- The columns of `pd.DataFrame(results)`: the union of the row keys in
first-seen order. -/
def columnsOf (rows : List Row) : List String := rows.foldl addRowCols []

/-- Lines 276-287 of `process_folder`: with rows present, order the columns
as the priority list filtered to those present followed by the remaining
columns in first-seen order; with no rows return the empty table with the
minimal fixed 3-column schema. -/
def toTable (results : List Row) : PTable :=
  if results.isEmpty then ⟨["folder_name", "filename", "page_number"], []⟩
  else
    let cols := columnsOf results
    ⟨(priority_cols.filter (fun c => cols.contains c))
       ++ cols.filter (fun c => !priority_cols.contains c),
     results⟩

/-- Result of `process_folder`: the table plus the collected side effects. -/
structure FolderResult where
  table : PTable
  crops : List String
  errors : List String
  analysisErrors : List String

/-- `process_folder` (ocr_processor.py lines 167-287): process the folder
entries in listing order and build the final table.  The folder name
(`os.path.basename(folder_path)`) and the listing are passed explicitly. -/
def process_folder (model_mapping : String → Option String)
    (analyzer : Option (String → Except String ReceiptAnalysis))
    (folder_name : String) (entries : List FileEntry) (form_type : String)
    (extract_receipts analyze_receipts : Bool) : FolderResult :=
  let outs := entries.map (processFile model_mapping analyzer folder_name
    form_type extract_receipts analyze_receipts)
  ⟨toTable ((outs.map FileOutput.rows).flatten),
   (outs.map FileOutput.crops).flatten,
   (outs.map FileOutput.errors).flatten,
   (outs.map FileOutput.analysisErrors).flatten⟩

/-! ## Concrete fixtures used by witnesses -/

/-- A row set whose first-seen columns are exactly type, z, folder_name,
filename. -/
def c7rows : List Row :=
  [[("type", Cell.null), ("z", Cell.null), ("folder_name", Cell.null),
    ("filename", Cell.null)]]

/-- An encoding step that fails (for example an unreadable image file). -/
def failEncode : Except String String := Except.error "cannot identify image"

/-- A vision call that is never reached in the failing witness. -/
def noCall : String → Except String String :=
  fun _ => Except.error "unused"

/-- A JSON parse that is never reached in the failing witness. -/
def noJson : String → Except String ReceiptAnalysis :=
  fun _ => Except.error "unused"

/-- A concrete point list for the coordinate-encoding witness. -/
def c4points : List PointTok :=
  [⟨['1', '3', '5', '9'], true, ['1', '3', '4', '1'], true⟩,
   ⟨['1', '3', '8', '7'], true, ['1', '9', '7', '1'], false⟩,
   ⟨['1', '1', '2'], false, ['2', '0', '2', '7'], true⟩,
   ⟨['8', '5'], false, ['1', '3', '9', '7'], false⟩]

/-- The digits of 9007199254740993 = 2^53 + 1, the smallest positive integer
that an IEEE binary64 cannot represent. -/
def c4big : List Char :=
  ['9', '0', '0', '7', '1', '9', '9', '2', '5', '4', '7', '4', '0', '9',
   '9', '3']

/-- A point list whose first coordinate is 2^53 + 1: both encodings are valid
8-token strings of equal numeric values, yet they parse differently. -/
def c4badPoints : List PointTok :=
  [⟨c4big, false, ['1'], false⟩, ⟨['1'], false, ['1'], false⟩,
   ⟨['1'], false, ['1'], false⟩, ⟨['1'], false, ['1'], false⟩]

/-! ## Unfolding lemmas for `enrich_payee_info` -/

theorem enrichFetch_ok {fetch : String → String → Except String RawBusinessJson}
    {name addr : String} {raw : RawBusinessJson} (now : Nat) (st : CacheState)
    (hok : fetch name addr = Except.ok raw) :
    enrichFetch fetch now st name addr
      = ⟨formatEnriched raw now,
         storeEntry st (cacheKey name addr) (formatEnriched raw now) now, 1⟩ := by
  unfold enrichFetch
  rw [hok]

theorem enrichFetch_err {fetch : String → String → Except String RawBusinessJson}
    {name addr : String} {e : String} (now : Nat) (st : CacheState)
    (herr : fetch name addr = Except.error e) :
    enrichFetch fetch now st name addr = ⟨errorEnriched e now, st, 1⟩ := by
  unfold enrichFetch
  rw [herr]

theorem enrichFetch_requests (fetch : String → String → Except String RawBusinessJson)
    (now : Nat) (st : CacheState) (name addr : String) :
    (enrichFetch fetch now st name addr).externalRequests = 1 := by
  unfold enrichFetch
  cases fetch name addr <;> rfl

theorem enrich_payee_info_no_cache
    (fetch : String → String → Except String RawBusinessJson)
    (now : Nat) (st : CacheState) (name addr : String) :
    enrich_payee_info fetch now st name addr false
      = enrichFetch fetch now st name addr := rfl

theorem enrich_payee_info_miss
    {st : CacheState} {name addr : String}
    (fetch : String → String → Except String RawBusinessJson)
    (now : Nat) (use_cache : Bool)
    (h : st.cache (cacheKey name addr) = none) :
    enrich_payee_info fetch now st name addr use_cache
      = enrichFetch fetch now st name addr := by
  unfold enrich_payee_info
  rw [h]
  cases use_cache <;> simp

theorem enrich_payee_info_hit
    {st : CacheState} {name addr : String} {cached : EnrichedInfo}
    (fetch : String → String → Except String RawBusinessJson) (now : Nat)
    (h : st.cache (cacheKey name addr) = some cached)
    (hexp : now < (st.cache_expiry (cacheKey name addr)).getD 0) :
    enrich_payee_info fetch now st name addr true = ⟨cached, st, 0⟩ := by
  unfold enrich_payee_info
  rw [h]
  simp only [if_true]
  rw [if_pos hexp]

theorem enrich_payee_info_expired
    {st : CacheState} {name addr : String} {cached : EnrichedInfo}
    (fetch : String → String → Except String RawBusinessJson) (now : Nat)
    (h : st.cache (cacheKey name addr) = some cached)
    (hexp : ¬ now < (st.cache_expiry (cacheKey name addr)).getD 0) :
    enrich_payee_info fetch now st name addr true
      = enrichFetch fetch now st name addr := by
  unfold enrich_payee_info
  rw [h]
  simp only [if_true]
  rw [if_neg hexp]

theorem storeEntry_cache_self (st : CacheState) (key : String)
    (info : EnrichedInfo) (now : Nat) :
    (storeEntry st key info now).cache key = some info := by
  unfold storeEntry
  simp

theorem storeEntry_expiry_self (st : CacheState) (key : String)
    (info : EnrichedInfo) (now : Nat) :
    (storeEntry st key info now).cache_expiry key = some (now + hours24) := by
  unfold storeEntry
  simp

theorem storeEntry_cache_ne (st : CacheState) (key : String)
    (info : EnrichedInfo) (now : Nat) {k : String} (hk : k ≠ key) :
    (storeEntry st key info now).cache k = st.cache k := by
  unfold storeEntry
  simp [if_neg hk]

theorem storeEntry_expiry_ne (st : CacheState) (key : String)
    (info : EnrichedInfo) (now : Nat) {k : String} (hk : k ≠ key) :
    (storeEntry st key info now).cache_expiry k = st.cache_expiry k := by
  unfold storeEntry
  simp [if_neg hk]

/-! ## Theorems about payee enrichment -/

/-- Claim C1: starting from a state in which the pair is not cached, a first
successful call at time `t1` and a second call with the identical pair at any
time `t2 < t1 + 24h` together issue exactly one external request, the second
call returning the cached record; a third call issued after the 24-hour expiry
(`t1 + 24h ≤ t3`) issues a second external request. -/
theorem C1_cache_round_trip
    (fetch fetch2 fetch3 : String → String → Except String RawBusinessJson)
    (st : CacheState) (name addr : String) (raw : RawBusinessJson)
    (t1 t2 t3 : Nat)
    (hmiss : st.cache (cacheKey name addr) = none)
    (hok : fetch name addr = Except.ok raw)
    (hwithin : t2 < t1 + hours24)
    (hexpired : t1 + hours24 ≤ t3) :
    (enrich_payee_info fetch t1 st name addr true).externalRequests
      + (enrich_payee_info fetch2 t2
          (enrich_payee_info fetch t1 st name addr true).state
          name addr true).externalRequests = 1
    ∧ (enrich_payee_info fetch2 t2
        (enrich_payee_info fetch t1 st name addr true).state
        name addr true).record
      = (enrich_payee_info fetch t1 st name addr true).record
    ∧ (enrich_payee_info fetch3 t3
        (enrich_payee_info fetch t1 st name addr true).state
        name addr true).externalRequests = 1 := by
  have h1 : enrich_payee_info fetch t1 st name addr true
      = ⟨formatEnriched raw t1,
         storeEntry st (cacheKey name addr) (formatEnriched raw t1) t1, 1⟩ := by
    rw [enrich_payee_info_miss fetch t1 true hmiss, enrichFetch_ok t1 st hok]
  rw [h1]
  have hc : (storeEntry st (cacheKey name addr) (formatEnriched raw t1) t1).cache
      (cacheKey name addr) = some (formatEnriched raw t1) :=
    storeEntry_cache_self ..
  have he : (storeEntry st (cacheKey name addr) (formatEnriched raw t1) t1).cache_expiry
      (cacheKey name addr) = some (t1 + hours24) :=
    storeEntry_expiry_self ..
  have h2 : enrich_payee_info fetch2 t2
      (storeEntry st (cacheKey name addr) (formatEnriched raw t1) t1)
      name addr true
      = ⟨formatEnriched raw t1,
         storeEntry st (cacheKey name addr) (formatEnriched raw t1) t1, 0⟩ := by
    apply enrich_payee_info_hit fetch2 t2 hc
    rw [he]
    exact hwithin
  have h3 : enrich_payee_info fetch3 t3
      (storeEntry st (cacheKey name addr) (formatEnriched raw t1) t1)
      name addr true
      = enrichFetch fetch3 t3
          (storeEntry st (cacheKey name addr) (formatEnriched raw t1) t1)
          name addr := by
    apply enrich_payee_info_expired fetch3 t3 hc
    rw [he]
    simp only [Option.getD_some]
    omega
  rw [h2, h3]
  exact ⟨rfl, rfl, enrichFetch_requests ..⟩

/-- Witness for C1 at a concrete input. -/
theorem C1_cache_round_trip_witness :
    (enrich_payee_info okFetch 0 emptyCache "a" "b" true).externalRequests
      + (enrich_payee_info okFetch 100
          (enrich_payee_info okFetch 0 emptyCache "a" "b" true).state
          "a" "b" true).externalRequests = 1
    ∧ (enrich_payee_info okFetch 100
        (enrich_payee_info okFetch 0 emptyCache "a" "b" true).state
        "a" "b" true).record
      = (enrich_payee_info okFetch 0 emptyCache "a" "b" true).record
    ∧ (enrich_payee_info okFetch hours24
        (enrich_payee_info okFetch 0 emptyCache "a" "b" true).state
        "a" "b" true).externalRequests = 1 :=
  C1_cache_round_trip okFetch okFetch okFetch emptyCache "a" "b" sampleRaw
    0 100 hours24 rfl rfl (by decide) (by omega)

/-- Claim C5 counterexample: the cache key is the underscore-joined string
`name ++ "_" ++ address`, so the two distinct pairs `("a", "b_c")` and
`("a_b", "c")` collide.  After a successful call for the first pair, a call
for the second pair within 24 hours is a cache hit: it issues no external
request and returns the record cached for the first pair. -/
theorem C5_counterexample :
    (("a", "b_c") ≠ (("a_b", "c") : String × String))
    ∧ (enrich_payee_info errFetch 1
         (enrich_payee_info okFetch 0 emptyCache "a" "b_c" true).state
         "a_b" "c" true).externalRequests = 0
    ∧ (enrich_payee_info errFetch 1
         (enrich_payee_info okFetch 0 emptyCache "a" "b_c" true).state
         "a_b" "c" true).record
      = (enrich_payee_info okFetch 0 emptyCache "a" "b_c" true).record := by
  refine ⟨by decide, ?_, ?_⟩ <;> rfl

/-- Claim C5 (amended): the cache is keyed by the joined string
`name ++ "_" ++ address`; two pairs use distinct cache entries exactly when
their joined keys differ.  For pairs with distinct joined keys, a record
cached for one pair is never returned as a hit for the other: the first call
writes nothing under the second key and the second call still issues an
external request. -/
theorem C5_amended_distinct_keys
    (fetch fetch2 : String → String → Except String RawBusinessJson)
    (st : CacheState) (n1 a1 n2 a2 : String) (raw : RawBusinessJson)
    (t1 t2 : Nat)
    (hkeys : cacheKey n1 a1 ≠ cacheKey n2 a2)
    (hmiss1 : st.cache (cacheKey n1 a1) = none)
    (hmiss2 : st.cache (cacheKey n2 a2) = none)
    (hok : fetch n1 a1 = Except.ok raw) :
    (enrich_payee_info fetch t1 st n1 a1 true).state.cache (cacheKey n2 a2)
      = none
    ∧ (enrich_payee_info fetch2 t2
        (enrich_payee_info fetch t1 st n1 a1 true).state
        n2 a2 true).externalRequests = 1 := by
  have h1 : enrich_payee_info fetch t1 st n1 a1 true
      = ⟨formatEnriched raw t1,
         storeEntry st (cacheKey n1 a1) (formatEnriched raw t1) t1, 1⟩ := by
    rw [enrich_payee_info_miss fetch t1 true hmiss1, enrichFetch_ok t1 st hok]
  rw [h1]
  have hc : (storeEntry st (cacheKey n1 a1) (formatEnriched raw t1) t1).cache
      (cacheKey n2 a2) = none := by
    rw [storeEntry_cache_ne st _ _ t1 (fun h => hkeys h.symm)]
    exact hmiss2
  refine ⟨hc, ?_⟩
  rw [enrich_payee_info_miss fetch2 t2 true hc]
  exact enrichFetch_requests ..

/-- Witness for the amended C5 at a concrete input. -/
theorem C5_amended_distinct_keys_witness :
    (enrich_payee_info okFetch 0 emptyCache "a" "b" true).state.cache
        (cacheKey "a" "c") = none
    ∧ (enrich_payee_info errFetch 1
        (enrich_payee_info okFetch 0 emptyCache "a" "b" true).state
        "a" "c" true).externalRequests = 1 :=
  C5_amended_distinct_keys okFetch errFetch emptyCache "a" "b" "a" "c"
    sampleRaw 0 1 (by decide) rfl rfl rfl

/-- Claim C6 counterexample: on a failed external call the returned record has
`business_description = "情報取得エラー"` (payee_enrichment.py line 109), so
the other text fields are not all empty as the claim states. -/
theorem C6_counterexample :
    (enrich_payee_info errFetch 0 emptyCache "テスト商店" "" true).record.business_description
      ≠ "" := by
  decide

/-- Claim C6 (amended): when the external request fails on a non-cached pair,
`enrich_payee_info` returns a record with `business_type = "エラー"`,
`business_description = "情報取得エラー"`, the remaining text fields empty
except `notes` which holds the error message, and the cache state is left
unchanged, so a subsequent call with the same key issues a fresh external
request. -/
theorem C6_amended_error_record
    (fetch fetch2 : String → String → Except String RawBusinessJson)
    (now now2 : Nat) (st : CacheState) (name addr : String)
    (use_cache use_cache2 : Bool) (e : String)
    (hmiss : st.cache (cacheKey name addr) = none)
    (herr : fetch name addr = Except.error e) :
    (enrich_payee_info fetch now st name addr use_cache).record
        = errorEnriched e now
    ∧ (enrich_payee_info fetch now st name addr use_cache).record.business_type
        = "エラー"
    ∧ (enrich_payee_info fetch now st name addr use_cache).record.business_description
        = "情報取得エラー"
    ∧ (enrich_payee_info fetch now st name addr use_cache).record.establishment_year
        = ""
    ∧ (enrich_payee_info fetch now st name addr use_cache).record.capital = ""
    ∧ (enrich_payee_info fetch now st name addr use_cache).record.employees = ""
    ∧ (enrich_payee_info fetch now st name addr use_cache).record.website = ""
    ∧ (enrich_payee_info fetch now st name addr use_cache).record.notes = e
    ∧ (enrich_payee_info fetch now st name addr use_cache).state = st
    ∧ (enrich_payee_info fetch2 now2
        (enrich_payee_info fetch now st name addr use_cache).state
        name addr use_cache2).externalRequests = 1 := by
  have h1 : enrich_payee_info fetch now st name addr use_cache
      = ⟨errorEnriched e now, st, 1⟩ := by
    rw [enrich_payee_info_miss fetch now use_cache hmiss, enrichFetch_err now st herr]
  rw [h1]
  refine ⟨rfl, rfl, rfl, rfl, rfl, rfl, rfl, rfl, rfl, ?_⟩
  rw [enrich_payee_info_miss fetch2 now2 use_cache2 hmiss]
  exact enrichFetch_requests ..

/-- Witness for the amended C6 at a concrete input. -/
theorem C6_amended_error_record_witness :
    (enrich_payee_info errFetch 5 emptyCache "店" "" true).record
        = errorEnriched "network error" 5
    ∧ (enrich_payee_info errFetch 5 emptyCache "店" "" true).record.business_type
        = "エラー"
    ∧ (enrich_payee_info errFetch 5 emptyCache "店" "" true).record.business_description
        = "情報取得エラー"
    ∧ (enrich_payee_info errFetch 5 emptyCache "店" "" true).record.establishment_year
        = ""
    ∧ (enrich_payee_info errFetch 5 emptyCache "店" "" true).record.capital = ""
    ∧ (enrich_payee_info errFetch 5 emptyCache "店" "" true).record.employees = ""
    ∧ (enrich_payee_info errFetch 5 emptyCache "店" "" true).record.website = ""
    ∧ (enrich_payee_info errFetch 5 emptyCache "店" "" true).record.notes
        = "network error"
    ∧ (enrich_payee_info errFetch 5 emptyCache "店" "" true).state = emptyCache
    ∧ (enrich_payee_info errFetch 6
        (enrich_payee_info errFetch 5 emptyCache "店" "" true).state
        "店" "" true).externalRequests = 1 :=
  C6_amended_error_record errFetch errFetch 5 6 emptyCache "店" "" true true
    "network error" rfl rfl

/-- Claim C10: whenever the external request is issued and succeeds, the call
stores the returned record in the cache with expiry `now + 24h` — and
`use_cache = false` always forces the external request, i.e. it only disables
reading the cache, never writing it — while cache entries under every other
key are left untouched (this also holds for cache-hit calls, which write
nothing at all). -/
theorem C10_store_and_frame
    (fetch : String → String → Except String RawBusinessJson)
    (now : Nat) (st : CacheState) (name addr : String) (raw : RawBusinessJson)
    (use_cache : Bool)
    (hok : fetch name addr = Except.ok raw) :
    (use_cache = false →
      (enrich_payee_info fetch now st name addr use_cache).externalRequests = 1)
    ∧ ((enrich_payee_info fetch now st name addr use_cache).externalRequests = 1 →
        (enrich_payee_info fetch now st name addr use_cache).state.cache
            (cacheKey name addr)
          = some (enrich_payee_info fetch now st name addr use_cache).record
        ∧ (enrich_payee_info fetch now st name addr use_cache).state.cache_expiry
            (cacheKey name addr)
          = some (now + hours24))
    ∧ (∀ k, k ≠ cacheKey name addr →
        (enrich_payee_info fetch now st name addr use_cache).state.cache k
          = st.cache k
        ∧ (enrich_payee_info fetch now st name addr use_cache).state.cache_expiry k
          = st.cache_expiry k) := by
  have hfetch : enrichFetch fetch now st name addr
      = ⟨formatEnriched raw now,
         storeEntry st (cacheKey name addr) (formatEnriched raw now) now, 1⟩ :=
    enrichFetch_ok now st hok
  have hstore :
      (⟨formatEnriched raw now,
        storeEntry st (cacheKey name addr) (formatEnriched raw now) now,
        1⟩ : EnrichOutcome).state.cache (cacheKey name addr)
        = some (formatEnriched raw now)
      ∧ (⟨formatEnriched raw now,
          storeEntry st (cacheKey name addr) (formatEnriched raw now) now,
          1⟩ : EnrichOutcome).state.cache_expiry (cacheKey name addr)
        = some (now + hours24) :=
    ⟨storeEntry_cache_self .., storeEntry_expiry_self ..⟩
  cases hu : use_cache with
  | false =>
      rw [enrich_payee_info_no_cache, hfetch]
      refine ⟨fun _ => rfl, fun _ => hstore, fun k hk => ?_⟩
      exact ⟨storeEntry_cache_ne st _ _ now hk, storeEntry_expiry_ne st _ _ now hk⟩
  | true =>
      cases hc : st.cache (cacheKey name addr) with
      | none =>
          rw [enrich_payee_info_miss fetch now true hc, hfetch]
          refine ⟨fun h => absurd h (by simp), fun _ => hstore, fun k hk => ?_⟩
          exact ⟨storeEntry_cache_ne st _ _ now hk, storeEntry_expiry_ne st _ _ now hk⟩
      | some cached =>
          by_cases hexp : now < (st.cache_expiry (cacheKey name addr)).getD 0
          · rw [enrich_payee_info_hit fetch now hc hexp]
            exact ⟨fun h => absurd h (by simp), fun h => absurd h (by simp),
              fun k _ => ⟨rfl, rfl⟩⟩
          · rw [enrich_payee_info_expired fetch now hc hexp, hfetch]
            refine ⟨fun h => absurd h (by simp), fun _ => hstore, fun k hk => ?_⟩
            exact ⟨storeEntry_cache_ne st _ _ now hk, storeEntry_expiry_ne st _ _ now hk⟩

/-- Witness for C10 at a concrete input with `use_cache = false`. -/
theorem C10_store_and_frame_witness :
    (false = false →
      (enrich_payee_info okFetch 0 emptyCache "a" "b" false).externalRequests = 1)
    ∧ ((enrich_payee_info okFetch 0 emptyCache "a" "b" false).externalRequests = 1 →
        (enrich_payee_info okFetch 0 emptyCache "a" "b" false).state.cache
            (cacheKey "a" "b")
          = some (enrich_payee_info okFetch 0 emptyCache "a" "b" false).record
        ∧ (enrich_payee_info okFetch 0 emptyCache "a" "b" false).state.cache_expiry
            (cacheKey "a" "b")
          = some (0 + hours24))
    ∧ (∀ k, k ≠ cacheKey "a" "b" →
        (enrich_payee_info okFetch 0 emptyCache "a" "b" false).state.cache k
          = emptyCache.cache k
        ∧ (enrich_payee_info okFetch 0 emptyCache "a" "b" false).state.cache_expiry k
          = emptyCache.cache_expiry k) :=
  C10_store_and_frame okFetch 0 emptyCache "a" "b" sampleRaw false rfl

/-! ## Helper lemmas about rows and the table -/

theorem toTable_rows (rs : List Row) : (toTable rs).rows = rs := by
  unfold toTable
  split
  next h => exact (List.isEmpty_iff.mp h).symm
  next => rfl

theorem processFile_failed (mm : String → Option String)
    (an : Option (String → Except String ReceiptAnalysis))
    (fn ft : String) (ex anl : Bool) (name : String)
    (hs : isSupportedFile name = true) :
    processFile mm an fn ft ex anl ⟨name, none⟩
      = ⟨[], [], ["Error processing " ++ name], []⟩ := by
  simp [processFile, hs]

theorem processFile_errors_nil (mm : String → Option String)
    (an : Option (String → Except String ReceiptAnalysis))
    (fn ft : String) (ex anl : Bool) (e : FileEntry)
    (h : e.recog ≠ none) :
    (processFile mm an fn ft ex anl e).errors = [] := by
  obtain ⟨name, recog⟩ := e
  unfold processFile
  dsimp only
  by_cases hs : isSupportedFile name = true
  · rw [if_pos hs]
    cases recog with
    | none => exact absurd rfl h
    | some r => cases r <;> rfl
  · rw [if_neg hs]

theorem errors_flatten_nil (mm : String → Option String)
    (an : Option (String → Except String ReceiptAnalysis))
    (fn ft : String) (ex anl : Bool) (l : List FileEntry)
    (h : ∀ e ∈ l, e.recog ≠ none) :
    ((l.map (processFile mm an fn ft ex anl)).map FileOutput.errors).flatten
      = [] := by
  induction l with
  | nil => rfl
  | cons a t ih =>
      simp only [List.map_cons, List.flatten_cons]
      rw [processFile_errors_nil mm an fn ft ex anl a (h a (List.mem_cons_self a t)),
        List.nil_append]
      exact ih fun e he => h e (List.mem_cons_of_mem a he)

/-! ## Theorems about the batch orchestrator -/

/-- Claim C2: with a folder in which recognition fails on exactly one file
(the entry with `recog = none`) and succeeds on all others, `process_folder`
produces exactly the rows of the other files, and its error log holds exactly
one entry, for the failed file.  The embedding is a total function, so no
exception reaches the caller. -/
theorem C2_single_failure_isolated
    (mm : String → Option String)
    (an : Option (String → Except String ReceiptAnalysis))
    (folder form_type : String) (ex anl : Bool)
    (pre post : List FileEntry) (name : String)
    (hsupp : isSupportedFile name = true)
    (hok : ∀ e ∈ pre ++ post, e.recog ≠ none) :
    (process_folder mm an folder (pre ++ ⟨name, none⟩ :: post)
        form_type ex anl).table.rows
      = (process_folder mm an folder (pre ++ post) form_type ex anl).table.rows
    ∧ (process_folder mm an folder (pre ++ ⟨name, none⟩ :: post)
        form_type ex anl).errors
      = ["Error processing " ++ name] := by
  have hfail := processFile_failed mm an folder form_type ex anl name hsupp
  unfold process_folder
  simp only [List.map_append, List.map_cons, List.flatten_append,
    List.flatten_cons, toTable_rows, hfail]
  constructor
  · simp
  · have h1 := errors_flatten_nil mm an folder form_type ex anl pre
      (fun e he => hok e (List.mem_append_left _ he))
    have h2 := errors_flatten_nil mm an folder form_type ex anl post
      (fun e he => hok e (List.mem_append_right _ he))
    rw [h1, h2]
    rfl

/-- Witness for C2: a two-file folder in which the second file fails. -/
theorem C2_single_failure_isolated_witness :
    (process_folder (fun _ => none) none "f"
        ([⟨"a.png", some (RecogResult.pages [⟨1, "hello"⟩])⟩]
          ++ ⟨"b.png", none⟩ :: []) "6-5" true true).table.rows
      = (process_folder (fun _ => none) none "f"
          ([⟨"a.png", some (RecogResult.pages [⟨1, "hello"⟩])⟩] ++ [])
          "6-5" true true).table.rows
    ∧ (process_folder (fun _ => none) none "f"
        ([⟨"a.png", some (RecogResult.pages [⟨1, "hello"⟩])⟩]
          ++ ⟨"b.png", none⟩ :: []) "6-5" true true).errors
      = ["Error processing " ++ "b.png"] :=
  C2_single_failure_isolated (fun _ => none) none "f" "6-5" true true
    [⟨"a.png", some (RecogResult.pages [⟨1, "hello"⟩])⟩] [] "b.png"
    (by decide) (by decide)

/-- Claim C7: with rows present, the table places the priority columns
(filtered to those present, in the fixed order folder_name, filename,
model_name, type, receipt_image_area, page_number_on_pdf, page_number,
payee_name, payee_address, payment_date_extracted, payment_purpose) first and
all remaining columns after them in first-seen order; in particular, for a
row set whose first-seen columns are type, z, folder_name, filename the
header is folder_name, filename, type, z. -/
theorem C7_column_order (results : List Row) (h : results ≠ []) :
    (toTable results).cols
      = (priority_cols.filter fun c => (columnsOf results).contains c)
        ++ ((columnsOf results).filter fun c => !priority_cols.contains c)
    ∧ (columnsOf results = ["type", "z", "folder_name", "filename"] →
        (toTable results).cols = ["folder_name", "filename", "type", "z"]) := by
  have hne : results.isEmpty = false := by
    cases results with
    | nil => exact absurd rfl h
    | cons a t => rfl
  have hmain : (toTable results).cols
      = (priority_cols.filter fun c => (columnsOf results).contains c)
        ++ ((columnsOf results).filter fun c => !priority_cols.contains c) := by
    unfold toTable
    rw [hne]
    rfl
  refine ⟨hmain, fun hcols => ?_⟩
  rw [hmain, hcols]
  decide

/-- Witness for C7 at the row set of the claim. -/
theorem C7_column_order_witness :
    (toTable c7rows).cols = ["folder_name", "filename", "type", "z"] :=
  (C7_column_order c7rows (by decide)).2 (by decide)

/-- Claim C9: when `process_folder` collects zero rows, it returns an empty
table whose columns are exactly folder_name, filename, page_number. -/
theorem C9_zero_rows_minimal_schema
    (mm : String → Option String)
    (an : Option (String → Except String ReceiptAnalysis))
    (folder form_type : String) (ex anl : Bool) (entries : List FileEntry)
    (h : (process_folder mm an folder entries form_type ex anl).table.rows
      = []) :
    (process_folder mm an folder entries form_type ex anl).table.cols
      = ["folder_name", "filename", "page_number"]
    ∧ (process_folder mm an folder entries form_type ex anl).table.rows
      = [] := by
  unfold process_folder at h ⊢
  dsimp only at h ⊢
  simp only [toTable_rows] at h
  rw [h]
  exact ⟨rfl, rfl⟩

/-- Witness for C9: a folder whose single entry has an unsupported
extension, hence no supported files and zero rows. -/
theorem C9_zero_rows_minimal_schema_witness :
    (process_folder (fun _ => none) none "f" [⟨"readme.txt", none⟩]
        "6-5" true true).table.cols
      = ["folder_name", "filename", "page_number"]
    ∧ (process_folder (fun _ => none) none "f" [⟨"readme.txt", none⟩]
        "6-5" true true).table.rows = [] :=
  C9_zero_rows_minimal_schema (fun _ => none) none "f" "6-5" true true
    [⟨"readme.txt", none⟩] rfl

/-! ## Helper lemmas about dict rows and the coordinate parser -/

theorem rowGet_dictInsert_self (row : Row) (k : String) (v : Cell) :
    rowGet (dictInsert row k v) k = some v := by
  induction row with
  | nil => simp [dictInsert, rowGet]
  | cons kv r ih =>
      by_cases h : kv.1 = k
      · simp [dictInsert, if_pos h, rowGet]
      · simp only [dictInsert, if_neg h, rowGet, if_neg h]
        exact ih

theorem rowGet_dictInsert_ne (row : Row) (k k2 : String) (v : Cell)
    (h : k2 ≠ k) :
    rowGet (dictInsert row k v) k2 = rowGet row k2 := by
  have hk : ¬(k = k2) := fun e => h e.symm
  induction row with
  | nil => simp [dictInsert, rowGet, hk]
  | cons kv r ih =>
      by_cases hh : kv.1 = k
      · have hne : ¬(kv.1 = k2) := fun e => hk (hh.symm.trans e)
        simp only [dictInsert, if_pos hh, rowGet, if_neg hk, if_neg hne]
      · simp only [dictInsert, if_neg hh, rowGet]
        by_cases h2 : kv.1 = k2
        · rw [if_pos h2, if_pos h2]
        · rw [if_neg h2, if_neg h2]
          exact ih

theorem rowGet_fieldsFold (fields : List (String × Option String)) (row : Row) :
    rowGet (fields.foldl
      (fun r kv => if kv.1 = "receipt_image_area" then r
                   else dictInsert r kv.1 (cellOfOpt kv.2)) row)
      "receipt_image_area"
      = rowGet row "receipt_image_area" := by
  induction fields generalizing row with
  | nil => rfl
  | cons kv t ih =>
      rw [List.foldl_cons]
      by_cases h : kv.1 = "receipt_image_area"
      · rw [if_pos h]
        exact ih row
      · rw [if_neg h, ih]
        exact rowGet_dictInsert_ne row kv.1 "receipt_image_area"
          (cellOfOpt kv.2) fun e => h e.symm

theorem rowGet_buildDocRow (mm : String → Option String)
    (folder filename ft : String) (doc : DocRecord) (v : Option String)
    (harea : doc.fields.lookup "receipt_image_area" = some v) :
    rowGet (buildDocRow mm folder filename ft doc) "receipt_image_area"
      = some (cellOfOpt v) := by
  unfold buildDocRow
  dsimp only
  rw [harea, rowGet_fieldsFold, rowGet_dictInsert_ne _ _ _ _ (by decide)]
  exact rowGet_dictInsert_self _ _ _

theorem docProcess_no_crop (mm : String → Option String)
    (an : Option (String → Except String ReceiptAnalysis))
    (folder filename ft : String) (anl : Bool) (doc_idx : Nat)
    (doc : DocRecord) (area : String)
    (harea : doc.fields.lookup "receipt_image_area" = some (some area))
    (hfail : parseCoordinatesCore area.toList = none) :
    (docProcess mm an folder filename ft true anl doc_idx doc).crops = []
    ∧ (docProcess mm an folder filename ft true anl doc_idx doc).row
      = buildDocRow mm folder filename ft doc := by
  have hget := rowGet_buildDocRow mm folder filename ft doc (some area) harea
  unfold docProcess
  dsimp only
  rw [hget]
  dsimp only [cellOfOpt]
  by_cases ha : area = ""
  · have hcond : ¬(area ≠ "") := fun hne => hne ha
    rw [if_neg hcond]
    exact ⟨rfl, rfl⟩
  · rw [if_pos ha, hfail]
    exact ⟨rfl, rfl⟩

theorem parseCoordinatesCore_length (s : List Char) (l : List Int)
    (h : parseCoordinatesCore s = some l) : l.length = 8 := by
  unfold parseCoordinatesCore at h
  split at h
  · dsimp only at h
    split at h
    · split at h
      next coords heq =>
        split at h
        next hlen =>
          injection h with h2
          rw [← h2]
          exact hlen
        next => exact absurd h (by simp)
      next => exact absurd h (by simp)
    · exact absurd h (by simp)
  · split at h
    next coords heq =>
      split at h
      next hlen =>
        injection h with h2
        rw [← h2]
        exact hlen
      next => exact absurd h (by simp)
    next => exact absurd h (by simp)

/-- Claim C3: `_parse_coordinates` either returns a list of exactly 8
integers or `none` (the no-box result) — it is a total function, so no
exception can escape — and for a document whose receipt-area string fails to
parse, `process_folder`'s per-file step still emits the document's row and
attempts no crop. -/
theorem C3_parse_safe_and_row_kept
    (s : String) (mm : String → Option String)
    (an : Option (String → Except String ReceiptAnalysis))
    (folder ft : String) (anl : Bool) (filename : String) (doc : DocRecord)
    (area : String)
    (hsupp : isSupportedFile filename = true)
    (harea : doc.fields.lookup "receipt_image_area" = some (some area))
    (hfail : _parse_coordinates area = none) :
    (∀ l, _parse_coordinates s = some l → l.length = 8)
    ∧ (processFile mm an folder ft true anl
        ⟨filename, some (RecogResult.documents [doc])⟩).rows.length = 1
    ∧ (processFile mm an folder ft true anl
        ⟨filename, some (RecogResult.documents [doc])⟩).crops = [] := by
  have hdoc := docProcess_no_crop mm an folder filename ft anl 0 doc area
    harea hfail
  refine ⟨fun l hl => parseCoordinatesCore_length s.toList l hl, ?_, ?_⟩
  · unfold processFile
    dsimp only
    rw [if_pos hsupp]
    rfl
  · unfold processFile
    dsimp only
    rw [if_pos hsupp]
    show ((List.map DocOutput.crops
      ((List.enum [doc]).map fun p =>
        docProcess mm an folder filename ft true anl p.1 p.2)).flatten) = []
    simp only [List.enum, List.enumFrom, List.map_cons, List.map_nil,
      List.flatten_cons, List.flatten_nil]
    rw [hdoc.1]
    rfl

/-- Witness for C3 at a malformed flat coordinate string. -/
theorem C3_parse_safe_and_row_kept_witness :
    (∀ l, _parse_coordinates "abc" = some l → l.length = 8)
    ∧ (processFile (fun _ => none) none "f" "6-5" true false
        ⟨"a.png", some (RecogResult.documents
          [⟨none, [("receipt_image_area", some "1,2,3")]⟩])⟩).rows.length = 1
    ∧ (processFile (fun _ => none) none "f" "6-5" true false
        ⟨"a.png", some (RecogResult.documents
          [⟨none, [("receipt_image_area", some "1,2,3")]⟩])⟩).crops = [] :=
  C3_parse_safe_and_row_kept "abc" (fun _ => none) none "f" "6-5" false
    "a.png" ⟨none, [("receipt_image_area", some "1,2,3")]⟩ "1,2,3"
    (by decide) rfl (by decide)

/-! ## Theorems about the receipt analyzer -/

/-- Claim C8: a failure at any stage of the `analyze_receipt_image` flow
(encoding, the external call, or JSON parsing) yields the sentinel result
with all 11 named fields set to "エラー"; the embedding is a total function,
so no exception reaches the caller. -/
theorem C8_analyze_failure_sentinel
    (encodeImage : Except String String)
    (visionCall : String → Except String String)
    (parseJson : String → Except String ReceiptAnalysis)
    (fetch : String → String → Except String RawBusinessJson)
    (now : Nat) (st : CacheState) (e : String)
    (hfail : visionPipeline encodeImage visionCall parseJson
      = Except.error e) :
    (analyze_receipt_image encodeImage visionCall parseJson fetch now st).1
      = errorAnalysis
    ∧ errorAnalysis.payee_name = some "エラー"
    ∧ errorAnalysis.payee_address = some "エラー"
    ∧ errorAnalysis.payment_date = some "エラー"
    ∧ errorAnalysis.payment_purpose = some "エラー"
    ∧ errorAnalysis.validity_score = some "エラー"
    ∧ errorAnalysis.validity_reason = some "エラー"
    ∧ errorAnalysis.payee_detail = some "エラー"
    ∧ errorAnalysis.transparency_score = some "エラー"
    ∧ errorAnalysis.alternative_suggestion = some "エラー"
    ∧ errorAnalysis.news_value_potential_score = some "エラー"
    ∧ errorAnalysis.news_value_potential_reason = some "エラー" := by
  have h1 : analyze_receipt_image encodeImage visionCall parseJson fetch now st
      = (errorAnalysis, st) := by
    unfold analyze_receipt_image
    rw [hfail]
  rw [h1]
  exact ⟨rfl, rfl, rfl, rfl, rfl, rfl, rfl, rfl, rfl, rfl, rfl, rfl⟩

/-- Witness for C8: a failing encoding step. -/
theorem C8_analyze_failure_sentinel_witness :
    (analyze_receipt_image failEncode noCall noJson okFetch 0 emptyCache).1
      = errorAnalysis
    ∧ errorAnalysis.payee_name = some "エラー"
    ∧ errorAnalysis.payee_address = some "エラー"
    ∧ errorAnalysis.payment_date = some "エラー"
    ∧ errorAnalysis.payment_purpose = some "エラー"
    ∧ errorAnalysis.validity_score = some "エラー"
    ∧ errorAnalysis.validity_reason = some "エラー"
    ∧ errorAnalysis.payee_detail = some "エラー"
    ∧ errorAnalysis.transparency_score = some "エラー"
    ∧ errorAnalysis.alternative_suggestion = some "エラー"
    ∧ errorAnalysis.news_value_potential_score = some "エラー"
    ∧ errorAnalysis.news_value_potential_reason = some "エラー" :=
  C8_analyze_failure_sentinel failEncode noCall noJson okFetch 0 emptyCache
    "cannot identify image" rfl

/-! ## Helper lemmas for the two coordinate encodings (claim C4) -/

theorem goodDigits_all (d : List Char) (h : goodDigits d = true) :
    d.all Char.isDigit = true := by
  simp only [goodDigits, Bool.and_eq_true] at h
  exact h.2

theorem goodDigits_ne_nil (d : List Char) (h : goodDigits d = true) :
    d ≠ [] := by
  intro h0
  rw [h0] at h
  exact absurd h (by decide)

theorem goodPoint_x (p : PointTok) (h : goodPoint p = true) :
    goodDigits p.xDigits = true := by
  simp only [goodPoint, Bool.and_eq_true] at h
  exact h.1

theorem goodPoint_y (p : PointTok) (h : goodPoint p = true) :
    goodDigits p.yDigits = true := by
  simp only [goodPoint, Bool.and_eq_true] at h
  exact h.2

theorem takeDigits_append (d r : List Char) (hd : d.all Char.isDigit = true)
    (hr : headNotDigit r = true) : takeDigits (d ++ r) = (d, r) := by
  induction d with
  | nil =>
      simp only [List.nil_append]
      cases r with
      | nil => rfl
      | cons c cs =>
          unfold headNotDigit at hr
          simp only [Bool.not_eq_true'] at hr
          simp [takeDigits, hr]
  | cons c cs ih =>
      simp only [List.all_cons, Bool.and_eq_true] at hd
      rw [List.cons_append]
      unfold takeDigits
      rw [if_pos hd.1, ih hd.2]

theorem stopChar_headNotDigit (r : List Char) (h : stopChar r = true) :
    headNotDigit r = true := by
  cases r with
  | nil => rfl
  | cons c cs =>
      simp only [stopChar, Bool.not_eq_true', Bool.or_eq_false_iff] at h
      simp [headNotDigit, h.1]

theorem takeDigits_zero (r : List Char) (hr : headNotDigit r = true) :
    takeDigits ('0' :: r) = (['0'], r) := by
  have h := takeDigits_append ['0'] r (by decide) hr
  simpa using h

theorem numTok_false (d : List Char) : numTok d false = d ++ [] := rfl

theorem numTok_true (d : List Char) : numTok d true = d ++ ['.', '0'] := rfl

theorem matchNum_numTok (d : List Char) (b : Bool) (r : List Char)
    (hd : goodDigits d = true) (hr : stopChar r = true) :
    matchNum (numTok d b ++ r) = some ⟨d, fracOf b⟩ := by
  have hne : d ≠ [] := goodDigits_ne_nil d hd
  have hall : d.all Char.isDigit = true := goodDigits_all d hd
  cases b with
  | false =>
      rw [numTok_false, List.append_nil]
      unfold matchNum
      rw [takeDigits_append d r hall (stopChar_headNotDigit r hr)]
      dsimp only
      rw [if_neg hne]
      cases r with
      | nil => rfl
      | cons c cs =>
          have hdot : ¬(c = '.') := by
            simp only [stopChar, Bool.not_eq_true', Bool.or_eq_false_iff] at hr
            exact of_decide_eq_false hr.2
          dsimp only
          rw [if_neg hdot]
          rfl
  | true =>
      rw [numTok_true]
      simp only [List.append_assoc, List.cons_append, List.nil_append]
      unfold matchNum
      rw [takeDigits_append d ('.' :: '0' :: r) hall rfl]
      dsimp only
      rw [if_neg hne]
      rw [takeDigits_zero r (stopChar_headNotDigit r hr)]
      rfl

theorem findXY_cons (c : Char) (rest : List Char) :
    findXY (c :: rest) = findXYStep c rest (findXY rest) := rfl

theorem findXYStep_skip (c : Char) (rest : List Char) (recur : List XYMatch)
    (h : ¬(c = 'x' ∨ c = 'y')) : findXYStep c rest recur = recur := by
  unfold findXYStep
  rw [if_neg h]

theorem findXYStep_match (c : Char) (rest2 : List Char)
    (recur : List XYMatch) (m : XYMatch) (hc : c = 'x' ∨ c = 'y')
    (hm : matchNum rest2 = some m) :
    findXYStep c ('=' :: rest2) recur = m :: recur := by
  unfold findXYStep
  rw [if_pos hc]
  dsimp only
  rw [if_pos rfl, hm]

theorem digit_not_xy (c : Char) (h : c.isDigit = true) :
    ¬(c = 'x' ∨ c = 'y') := by
  rintro (rfl | rfl) <;> exact absurd h (by decide)

theorem findXY_append_skip (l r : List Char)
    (h : ∀ c ∈ l, ¬(c = 'x' ∨ c = 'y')) : findXY (l ++ r) = findXY r := by
  induction l with
  | nil => rfl
  | cons c t ih =>
      rw [List.cons_append, findXY_cons,
        findXYStep_skip _ _ _ (h c (List.mem_cons_self c t))]
      exact ih fun c2 hc2 => h c2 (List.mem_cons_of_mem c hc2)

theorem findXY_numTok_skip (d : List Char) (b : Bool) (r : List Char)
    (hall : d.all Char.isDigit = true) :
    findXY (numTok d b ++ r) = findXY r := by
  have hd : ∀ c ∈ d, ¬(c = 'x' ∨ c = 'y') := fun c hc =>
    digit_not_xy c (List.all_eq_true.mp hall c hc)
  cases b with
  | false =>
      rw [numTok_false, List.append_nil]
      exact findXY_append_skip d r hd
  | true =>
      rw [numTok_true]
      simp only [List.append_assoc, List.cons_append, List.nil_append]
      rw [findXY_append_skip d _ hd, findXY_cons,
        findXYStep_skip _ _ _ (by decide), findXY_cons,
        findXYStep_skip _ _ _ (by decide)]

theorem findXY_pointOne (p : PointTok) (r : List Char)
    (hp : goodPoint p = true) :
    findXY (pointEncodingOne p ++ r)
      = ⟨p.xDigits, fracOf p.xFrac⟩ :: ⟨p.yDigits, fracOf p.yFrac⟩
          :: findXY r := by
  obtain ⟨xd, xf, yd, yf⟩ := p
  have hx := goodPoint_x ⟨xd, xf, yd, yf⟩ hp
  have hy := goodPoint_y ⟨xd, xf, yd, yf⟩ hp
  dsimp only at hx hy ⊢
  simp only [pointEncodingOne, List.cons_append, List.append_assoc,
    List.nil_append]
  rw [findXY_cons, findXYStep_skip _ _ _ (by decide)]
  rw [findXY_cons, findXYStep_skip _ _ _ (by decide)]
  rw [findXY_cons, findXYStep_skip _ _ _ (by decide)]
  rw [findXY_cons, findXYStep_skip _ _ _ (by decide)]
  rw [findXY_cons, findXYStep_skip _ _ _ (by decide)]
  rw [findXY_cons, findXYStep_skip _ _ _ (by decide)]
  rw [findXY_cons, findXYStep_match _ _ _ _ (Or.inl rfl)
    (matchNum_numTok xd xf
      (',' :: ' ' :: 'y' :: '=' :: (numTok yd yf ++ ')' :: r)) hx rfl)]
  rw [findXY_cons, findXYStep_skip _ _ _ (by decide)]
  rw [findXY_numTok_skip xd xf _ (goodDigits_all xd hx)]
  rw [findXY_cons, findXYStep_skip _ _ _ (by decide)]
  rw [findXY_cons, findXYStep_skip _ _ _ (by decide)]
  rw [findXY_cons, findXYStep_match _ _ _ _ (Or.inr rfl)
    (matchNum_numTok yd yf (')' :: r) hy rfl)]
  rw [findXY_cons, findXYStep_skip _ _ _ (by decide)]
  rw [findXY_numTok_skip yd yf _ (goodDigits_all yd hy)]
  rw [findXY_cons, findXYStep_skip _ _ _ (by decide)]

theorem findXY_pointEncoding (ps : List PointTok)
    (hgood : ps.all goodPoint = true) :
    findXY (pointEncoding ps)
      = ps.flatMap (fun p => [⟨p.xDigits, fracOf p.xFrac⟩,
                              ⟨p.yDigits, fracOf p.yFrac⟩]) := by
  induction ps with
  | nil => rfl
  | cons p t ih =>
      simp only [List.all_cons, Bool.and_eq_true] at hgood
      cases t with
      | nil =>
          have h1 : pointEncoding [p] = pointEncodingOne p ++ [] := by
            rw [List.append_nil]
            rfl
          rw [h1, findXY_pointOne p [] hgood.1]
          rfl
      | cons q t2 =>
          have h1 : pointEncoding (p :: q :: t2)
              = pointEncodingOne p ++ (',' :: pointEncoding (q :: t2)) := rfl
          rw [h1, findXY_pointOne p _ hgood.1, findXY_cons,
            findXYStep_skip _ _ _ (by decide), ih hgood.2]
          rfl

theorem containsSub_of_isPrefix (needle hay : List Char)
    (h : needle.isPrefixOf hay = true) : containsSub needle hay = true := by
  cases hay with
  | nil =>
      cases needle with
      | nil => rfl
      | cons c cs => exact absurd h Bool.false_ne_true
  | cons c r =>
      unfold containsSub
      rw [h, Bool.true_or]

theorem containsSub_eq_false (c0 : Char) (tail hay : List Char)
    (h : c0 ∉ hay) : containsSub (c0 :: tail) hay = false := by
  induction hay with
  | nil => rfl
  | cons c r ih =>
      unfold containsSub
      have hne : (c0 == c) = false := by
        simp only [beq_eq_false_iff_ne, ne_eq]
        exact fun e => h (e ▸ List.mem_cons_self c r)
      have hpre : (c0 :: tail).isPrefixOf (c :: r) = false := by
        simp [List.isPrefixOf, hne]
      rw [hpre, Bool.false_or]
      exact ih fun hm => h (List.mem_cons_of_mem c hm)

theorem mem_joinComma (c : Char) (ts : List (List Char))
    (h : c ∈ joinComma ts) : c = ',' ∨ ∃ t ∈ ts, c ∈ t := by
  induction ts with
  | nil => exact absurd h (List.not_mem_nil c)
  | cons t rest ih =>
      cases rest with
      | nil => exact Or.inr ⟨t, List.mem_cons_self t [], h⟩
      | cons t2 rest2 =>
          have h1 : joinComma (t :: t2 :: rest2)
              = t ++ ',' :: joinComma (t2 :: rest2) := rfl
          rw [h1] at h
          rcases List.mem_append.mp h with h2 | h3
          · exact Or.inr ⟨t, List.mem_cons_self t _, h2⟩
          · rcases List.mem_cons.mp h3 with rfl | h4
            · exact Or.inl rfl
            · rcases ih h4 with h5 | ⟨t3, ht3, hc3⟩
              · exact Or.inl h5
              · exact Or.inr ⟨t3, List.mem_cons_of_mem t ht3, hc3⟩

theorem containsSub_flat_false (ps : List PointTok)
    (h : ∀ t ∈ flatTokens ps, goodDigits t = true) :
    containsSub pointMarker (flatEncoding ps) = false := by
  have hP : 'P' ∉ flatEncoding ps := by
    intro hmem
    rcases mem_joinComma 'P' (flatTokens ps) hmem with h1 | ⟨t, ht, hc⟩
    · exact absurd h1 (by decide)
    · exact absurd (List.all_eq_true.mp (goodDigits_all t (h t ht)) 'P' hc)
        (by decide)
  exact containsSub_eq_false 'P' ['o', 'i', 'n', 't', '('] _ hP

theorem splitComma_cons (c : Char) (l : List Char) :
    splitComma (c :: l)
      = if c = ',' then [] :: splitComma l
        else match splitComma l with
          | [] => [[c]]
          | t :: ts => (c :: t) :: ts := rfl

theorem splitComma_append_noComma (t r : List Char) (s : List Char)
    (ss : List (List Char)) (h : ∀ c ∈ t, ¬(c = ','))
    (hr : splitComma r = s :: ss) :
    splitComma (t ++ r) = (t ++ s) :: ss := by
  induction t with
  | nil => simpa using hr
  | cons c cs ih =>
      rw [List.cons_append, splitComma_cons,
        if_neg (h c (List.mem_cons_self c cs)),
        ih fun c2 hc2 => h c2 (List.mem_cons_of_mem c hc2)]
      rfl

theorem splitComma_joinComma (ts : List (List Char))
    (h : ∀ t ∈ ts, ∀ c ∈ t, ¬(c = ',')) (hne : ts ≠ []) :
    splitComma (joinComma ts) = ts := by
  induction ts with
  | nil => exact absurd rfl hne
  | cons t rest ih =>
      cases rest with
      | nil =>
          have h1 := splitComma_append_noComma t [] [] []
            (h t (List.mem_cons_self t [])) rfl
          simpa using h1
      | cons t2 rest2 =>
          have hjc : joinComma (t :: t2 :: rest2)
              = t ++ ',' :: joinComma (t2 :: rest2) := rfl
          have hr : splitComma (',' :: joinComma (t2 :: rest2))
              = [] :: splitComma (joinComma (t2 :: rest2)) := by
            rw [splitComma_cons, if_pos rfl]
          rw [hjc, splitComma_append_noComma t _ [] _
            (h t (List.mem_cons_self t _)) hr, List.append_nil,
            ih (fun t3 ht3 => h t3 (List.mem_cons_of_mem t ht3)) (by simp)]

theorem digit_not_ws (c : Char) (h : c.isDigit = true) :
    c.isWhitespace = false := by
  cases hw : c.isWhitespace with
  | false => rfl
  | true =>
      exfalso
      simp only [Char.isWhitespace, Bool.or_eq_true, decide_eq_true_eq] at hw
      rcases hw with ((rfl | rfl) | rfl) | rfl <;> exact absurd h (by decide)

theorem dropWhile_ws_all_digits (d : List Char)
    (hall : d.all Char.isDigit = true) :
    d.dropWhile Char.isWhitespace = d := by
  cases d with
  | nil => rfl
  | cons c cs =>
      simp only [List.all_cons, Bool.and_eq_true] at hall
      simp [List.dropWhile_cons, digit_not_ws c hall.1]

theorem pyInt_digits (d : List Char) (hd : goodDigits d = true) :
    pyInt d = some (Int.ofNat (digitsVal d)) := by
  have hne : d ≠ [] := goodDigits_ne_nil d hd
  have hall : d.all Char.isDigit = true := goodDigits_all d hd
  have hallrev : d.reverse.all Char.isDigit = true := by
    rw [List.all_reverse]
    exact hall
  unfold pyInt
  rw [dropWhile_ws_all_digits d hall, dropWhile_ws_all_digits _ hallrev,
    List.reverse_reverse]
  dsimp only
  cases d with
  | nil => exact absurd rfl hne
  | cons c cs =>
      have hc : c.isDigit = true :=
        List.all_eq_true.mp hall c (List.mem_cons_self c cs)
      have hplus : ¬(c = '+') := fun e => absurd (e ▸ hc) (by decide)
      have hminus : ¬(c = '-') := fun e => absurd (e ▸ hc) (by decide)
      dsimp only
      rw [if_neg hplus, if_neg hminus]
      unfold digitsToNat?
      rw [if_pos ⟨List.cons_ne_nil c cs, hall⟩]
      rfl

theorem goodDigits_not_comma (t : List Char) (h : goodDigits t = true)
    (c : Char) (hc : c ∈ t) : ¬(c = ',') := fun e => by
  have hd := List.all_eq_true.mp (goodDigits_all t h) c hc
  rw [e] at hd
  exact absurd hd (by decide)

theorem allSome_nil {α : Type} : allSome ([] : List (Option α)) = some [] :=
  rfl

theorem allSome_cons {α : Type} (o : Option α) (os : List (Option α)) :
    allSome (o :: os)
      = match o, allSome os with
        | some a, some l => some (a :: l)
        | _, _ => none := rfl

theorem allSome_map_pyInt (ts : List (List Char))
    (h : ∀ t ∈ ts, goodDigits t = true) :
    allSome (ts.map pyInt)
      = some (ts.map fun t => Int.ofNat (digitsVal t)) := by
  induction ts with
  | nil => rfl
  | cons t rest ih =>
      rw [List.map_cons, allSome_cons,
        pyInt_digits t (h t (List.mem_cons_self t rest)),
        ih fun t2 ht2 => h t2 (List.mem_cons_of_mem t ht2)]
      rfl

theorem log2Fuel_bounds (fuel : Nat) : ∀ n, n ≤ fuel → 1 ≤ n →
    2 ^ log2Fuel fuel n ≤ n ∧ n < 2 ^ (log2Fuel fuel n + 1) := by
  induction fuel with
  | zero => intro n h1 h2; omega
  | succ fuel ih =>
      intro n hle hn
      by_cases h1 : n ≤ 1
      · have hn1 : n = 1 := by omega
        subst hn1
        simp [log2Fuel]
      · have heq : log2Fuel (fuel + 1) n = log2Fuel fuel (n / 2) + 1 := by
          simp [log2Fuel, h1]
        have hq : 1 ≤ n / 2 := by omega
        have hqf : n / 2 ≤ fuel := by omega
        obtain ⟨hl, hr⟩ := ih (n / 2) hqf hq
        rw [heq]
        constructor
        · rw [pow_succ]
          omega
        · rw [pow_succ]
          omega

theorem natLog2_bounds (n : Nat) (hn : 1 ≤ n) :
    2 ^ natLog2 n ≤ n ∧ n < 2 ^ (natLog2 n + 1) :=
  log2Fuel_bounds n n (Nat.le_refl n) hn

theorem roundTruncDouble_small (n : Nat) (h : n < 2 ^ 53) :
    roundTruncDouble n 1 = some (Int.ofNat n) := by
  by_cases h0 : n = 0
  · subst h0
    rfl
  · have hn : 1 ≤ n := by omega
    obtain ⟨hlo, hhi⟩ := natLog2_bounds n hn
    have hlog : natLog2 n ≤ 52 := by
      by_contra hc
      have h53 : (2 : Nat) ^ 53 ≤ 2 ^ natLog2 n :=
        Nat.pow_le_pow_right (by omega) (by omega)
      omega
    have hp : pow2LE ((natLog2 n : Int) - (natLog2 1 : Int)) n 1 = true := by
      have hb1 : natLog2 1 = 0 := rfl
      unfold pow2LE
      rw [hb1]
      rw [if_pos (by omega : (0 : Int) ≤ (natLog2 n : Int) - ((0 : Nat) : Int))]
      simp only [decide_eq_true_eq]
      have ht : ((natLog2 n : Int) - ((0 : Nat) : Int)).toNat = natLog2 n := by
        omega
      rw [ht]
      simpa using hlo
    have hfl : floorLog2 n 1 = (natLog2 n : Int) := by
      unfold floorLog2
      rw [hp]
      simp [show natLog2 1 = 0 from rfl]
    have hE : ¬(0 < (natLog2 n : Int) - 52) := by omega
    have hT : (-((natLog2 n : Int) - 52)).toNat = 52 - natLog2 n := by omega
    unfold roundTruncDouble
    rw [if_neg h0, hfl]
    dsimp only
    rw [if_neg hE, if_neg hE, if_neg hE, hT]
    simp only [Nat.div_one, Nat.mod_one, Nat.mul_zero, mul_zero]
    rw [if_neg (by simp)]
    rw [Nat.mul_div_cancel _ (pow_pos (by omega) (52 - natLog2 n))]

theorem matchIntVal?_small (d : List Char) (b : Bool)
    (h : digitsVal d < 2 ^ 53) :
    matchIntVal? ⟨d, fracOf b⟩ = some (Int.ofNat (digitsVal d)) := by
  have hs : stripZeros ((fracOf b).getD []) = [] := by cases b <;> rfl
  unfold matchIntVal?
  dsimp only
  rw [hs, List.append_nil]
  exact roundTruncDouble_small (digitsVal d) h

set_option exponentiation.threshold 1100 in
set_option maxRecDepth 4000 in
/-- Claim C4 counterexample: both encodings below are valid 8-token strings
of the same numeric values, the first of which is 9007199254740993 = 2^53+1.
The flat branch parses it with exact integer conversion; the point branch
coerces through an IEEE binary64, which rounds it to 9007199254740992 (ties
to even), so the two encodings parse to different coordinate lists. -/
theorem C4_counterexample :
    _parse_coordinates (String.mk (pointEncoding c4badPoints))
        = some [9007199254740992, 1, 1, 1, 1, 1, 1, 1]
    ∧ _parse_coordinates (String.mk (flatEncoding c4badPoints))
        = some [9007199254740993, 1, 1, 1, 1, 1, 1, 1]
    ∧ _parse_coordinates (String.mk (pointEncoding c4badPoints))
        ≠ _parse_coordinates (String.mk (flatEncoding c4badPoints)) := by
  have hp : _parse_coordinates (String.mk (pointEncoding c4badPoints))
      = some [9007199254740992, 1, 1, 1, 1, 1, 1, 1] := by decide
  have hf : _parse_coordinates (String.mk (flatEncoding c4badPoints))
      = some [9007199254740993, 1, 1, 1, 1, 1, 1, 1] := by decide
  refine ⟨hp, hf, ?_⟩
  rw [hp, hf]
  decide

/-- Claim C4 (amended): the point-descriptor encoding and the flat
comma-separated encoding of the same numeric values parse to the same 8
coordinates — hence the same 4 (x,y) pairs — provided every encoded value is
below 2^53 and hence exactly representable in the IEEE binary64 through
which the point branch coerces.  At larger values the point branch rounds
and the encodings can disagree (see the counterexample at 2^53 + 1); pixel
coordinates are far below the bound. -/
theorem C4_encodings_agree_bounded (ps : List PointTok)
    (hlen : ps.length = 4) (hgood : ps.all goodPoint = true)
    (hsmall : ∀ t ∈ flatTokens ps, digitsVal t < 2 ^ 53) :
    _parse_coordinates (String.mk (pointEncoding ps)) = some (coordValues ps)
    ∧ _parse_coordinates (String.mk (flatEncoding ps))
      = some (coordValues ps) := by
  have hps : ∃ a b c d, ps = [a, b, c, d] := by
    cases ps with
    | nil => simp at hlen
    | cons a t1 =>
        cases t1 with
        | nil => simp at hlen
        | cons b t2 =>
            cases t2 with
            | nil => simp at hlen
            | cons c t3 =>
                cases t3 with
                | nil => simp at hlen
                | cons d t4 =>
                    cases t4 with
                    | nil => exact ⟨a, b, c, d, rfl⟩
                    | cons e t5 =>
                        simp only [List.length_cons, List.length_nil] at hlen
                        omega
  obtain ⟨p1, p2, p3, p4, rfl⟩ := hps
  simp only [List.all_cons, Bool.and_eq_true, List.all_nil] at hgood
  obtain ⟨h1, h2, h3, h4, -⟩ := hgood
  have htok : ∀ t ∈ flatTokens [p1, p2, p3, p4], goodDigits t = true := by
    intro t ht
    simp only [flatTokens, List.flatMap_cons, List.flatMap_nil,
      List.cons_append, List.nil_append, List.append_nil, List.mem_cons,
      List.not_mem_nil, or_false] at ht
    rcases ht with rfl | rfl | rfl | rfl | rfl | rfl | rfl | rfl
    · exact goodPoint_x p1 h1
    · exact goodPoint_y p1 h1
    · exact goodPoint_x p2 h2
    · exact goodPoint_y p2 h2
    · exact goodPoint_x p3 h3
    · exact goodPoint_y p3 h3
    · exact goodPoint_x p4 h4
    · exact goodPoint_y p4 h4
  constructor
  · show parseCoordinatesCore (pointEncoding [p1, p2, p3, p4]) = _
    have hpre : containsSub pointMarker (pointEncoding [p1, p2, p3, p4])
        = true := by
      apply containsSub_of_isPrefix
      rfl
    unfold parseCoordinatesCore
    rw [if_pos hpre,
      findXY_pointEncoding [p1, p2, p3, p4]
        (by simp [List.all_cons, h1, h2, h3, h4])]
    have e1 := matchIntVal?_small p1.xDigits p1.xFrac
      (hsmall p1.xDigits (by simp [flatTokens]))
    have e2 := matchIntVal?_small p1.yDigits p1.yFrac
      (hsmall p1.yDigits (by simp [flatTokens]))
    have e3 := matchIntVal?_small p2.xDigits p2.xFrac
      (hsmall p2.xDigits (by simp [flatTokens]))
    have e4 := matchIntVal?_small p2.yDigits p2.yFrac
      (hsmall p2.yDigits (by simp [flatTokens]))
    have e5 := matchIntVal?_small p3.xDigits p3.xFrac
      (hsmall p3.xDigits (by simp [flatTokens]))
    have e6 := matchIntVal?_small p3.yDigits p3.yFrac
      (hsmall p3.yDigits (by simp [flatTokens]))
    have e7 := matchIntVal?_small p4.xDigits p4.xFrac
      (hsmall p4.xDigits (by simp [flatTokens]))
    have e8 := matchIntVal?_small p4.yDigits p4.yFrac
      (hsmall p4.yDigits (by simp [flatTokens]))
    simp [List.flatMap_cons, List.flatMap_nil, allSome_cons, allSome_nil,
      e1, e2, e3, e4, e5, e6, e7, e8, coordValues]
  · show parseCoordinatesCore (flatEncoding [p1, p2, p3, p4]) = _
    have hnc := containsSub_flat_false [p1, p2, p3, p4] htok
    have hcond : ¬(containsSub pointMarker (flatEncoding [p1, p2, p3, p4])
        = true) := by
      rw [hnc]
      decide
    unfold parseCoordinatesCore
    rw [if_neg hcond]
    have hsplit := splitComma_joinComma (flatTokens [p1, p2, p3, p4])
      (fun t ht => goodDigits_not_comma t (htok t ht)) (by simp [flatTokens])
    rw [show flatEncoding [p1, p2, p3, p4]
        = joinComma (flatTokens [p1, p2, p3, p4]) from rfl, hsplit,
      allSome_map_pyInt _ htok]
    simp [coordValues, flatTokens, List.flatMap_cons]

/-- Witness for the amended C4 at the concrete quadrilateral of the source
docstring. -/
theorem C4_encodings_agree_bounded_witness :
    _parse_coordinates (String.mk (pointEncoding c4points))
      = some (coordValues c4points)
    ∧ _parse_coordinates (String.mk (flatEncoding c4points))
      = some (coordValues c4points) :=
  C4_encodings_agree_bounded c4points (by decide) (by decide) (by decide)

end GunmaOCR
